import Mathlib

/-!
Verification of the HDF5-to-Delta-Lake ingestion pipeline
(`phase_1_data_conversion` notebooks).

Python strings are embedded as `List Char`; the per-file ingestion
worker `process_file`, the filename parser `parse_filename`, the
metadata profiler `collect_hdf5_metadata` and the verification
reader's distinct-tuple count are translated below.  Exceptions are
modelled with `Except`: every `raise` inside the worker's `try` block
becomes an `Except.error`, and the worker's `except` clause becomes
the total wrapper `process_file`.  64-bit floats are modelled by exact
rationals (all inputs considered here are exact in float64), while the
Spark schema records the declared column types.
-/

namespace SparkDelta

/-- Python strings, embedded as lists of characters. -/
abbrev Str := List Char

/-- Embedding of Python `filename.replace(".h5", "")`: delete every
occurrence of the three-character pattern `.h5`, scanning left to
right (non-overlapping occurrences, as `str.replace` does). -/
def stripAllH5 : Str → Str
  | '.' :: 'h' :: '5' :: rest => stripAllH5 rest
  | c :: cs => c :: stripAllH5 cs
  | [] => []

/-- Embedding of Python `base.split(sep)` for a one-character
separator: splitting on every occurrence, keeping empty pieces. -/
def pySplit (sep : Char) : Str → List Str
  | [] => [[]]
  | c :: cs =>
    if c = sep then [] :: pySplit sep cs
    else
      match pySplit sep cs with
      | [] => [[c]]
      | p :: ps => (c :: p) :: ps

/-- Number of underscores in a string (used to relate the two
extension-removal conventions to the segment count). -/
def countU : Str → Nat
  | [] => 0
  | c :: cs => (if c = '_' then 1 else 0) + countU cs

/-- Embedding of Python `s.endswith(p)`. -/
def pyEndsWith (s p : Str) : Bool :=
  decide (s.drop (s.length - p.length) = p)

/-- Removing the trailing `.h5` extension (and only the trailing
extension) from a base name; this is the notion of "removing the
extension" used by the specification's parser contract. -/
def stripExtH5 (s : Str) : Str :=
  if pyEndsWith s ['.', 'h', '5'] then s.take (s.length - 3) else s

/-- The five attributes parsed from a file's base name. -/
structure Meta where
  machine_id : Str
  month : Str
  year : Str
  operation : Str
  example_no : Str
deriving DecidableEq

/-- Indexing `parts[0] .. parts[4]` of the split base name:
`parts[4]` raises `IndexError` exactly when fewer than five parts
exist, so the result is an `Option`. -/
def parseParts (parts : List Str) : Option Meta :=
  if 5 ≤ parts.length then
    some { machine_id := parts.getD 0 []
         , month := parts.getD 1 []
         , year := parts.getD 2 []
         , operation := parts.getD 3 []
         , example_no := parts.getD 4 [] }
  else none

/-- Embedding of `parse_filename`'s two statements:
`base = filename.replace(".h5", "")` and `parts = base.split("_")`,
followed by the `parts[0] .. parts[4]` accesses above. -/
def parse_filename (filename : Str) : Option Meta :=
  parseParts (pySplit '_' (stripAllH5 filename))

/-! ## Data model: rows, schema, Delta table, pipeline state -/

/-- Spark column types occurring in the fixed schema
(`DoubleType` = 64-bit float, `StringType`). -/
inductive FType where
  | float64 : FType
  | string : FType
deriving DecidableEq

/-- One ingested sample: three acceleration values plus the six
metadata fields broadcast from the source file.  Float64 sample
values are modelled by exact rationals. -/
structure Row where
  x : ℚ
  y : ℚ
  z : ℚ
  machine_id : Str
  month : Str
  year : Str
  operation : Str
  example_no : Str
  label : Str
deriving DecidableEq

/-- The fixed 9-column schema (`StructType` constant `schema` in the
notebook), applied to every `createDataFrame` call. -/
def deltaSchema : List (Str × FType) :=
  [ ("x".toList, FType.float64)
  , ("y".toList, FType.float64)
  , ("z".toList, FType.float64)
  , ("machine_id".toList, FType.string)
  , ("month".toList, FType.string)
  , ("year".toList, FType.string)
  , ("operation".toList, FType.string)
  , ("example_no".toList, FType.string)
  , ("label".toList, FType.string) ]

/-- The fixed partition columns passed to `partitionBy` on every
write: `machine_id`, `operation`, `label`. -/
def pCols : List Str :=
  ["machine_id".toList, "operation".toList, "label".toList]

/-- One committed append transaction of the Delta log: the partition
columns it was issued with and the number of rows it added. -/
structure AppendTxn where
  partCols : List Str
  nrows : Nat
deriving DecidableEq

/-- The six-field metadata tuple (machine_id, month, year, operation,
example_no, label). -/
abbrev Tuple6 := Str × Str × Str × Str × Str × Str

instance instDecEqTuple6 : DecidableEq Tuple6 :=
  @instDecidableEqProd _ _ _ (inferInstance : DecidableEq (Str × Str × Str × Str × Str))

/-- The metadata tuple of a row, in the column order used by the
verification notebook's `select(...).distinct()`. -/
def metaTuple (r : Row) : Tuple6 :=
  (r.machine_id, r.month, r.year, r.operation, r.example_no, r.label)

/-- The physical partition directory a row is stored under
(machine_id / operation / label). -/
def rowTriple (r : Row) : Str × Str × Str :=
  (r.machine_id, r.operation, r.label)

/-- The Delta table: its schema, accumulated rows, transaction log,
and one entry per physical data file keyed by the partition
directory holding it. -/
structure DeltaTable where
  schemaCols : List (Str × FType)
  rows : List Row
  txns : List AppendTxn
  dataFiles : List (Str × Str × Str)
deriving DecidableEq

/-- Observable pipeline state: the Delta table at `DELTA_DIR`
(`none` = no Delta table exists there yet) and the two outcome logs,
one entry per written line. -/
structure PipeState where
  table : Option DeltaTable
  successLog : List Str
  failLog : List Str
deriving DecidableEq

deriving instance DecidableEq for Except

/-! ## Source files -/

/-- One dataset inside an HDF5 file: its key, declared shape, the
`column_names` attribute, and its contents as a list of rows. -/
structure H5Dataset where
  dname : Str
  shape : List Nat
  colNames : List Str
  data : List (List ℚ)
deriving DecidableEq

/-- An opened HDF5 file: its datasets in key order. -/
structure H5File where
  datasets : List H5Dataset
deriving DecidableEq

/-- One physical source file: its path (as components) and what
`h5py.File(path)` yields — `error e` models the open itself raising
with message `e` (unreadable / corrupted file). -/
structure SrcFile where
  path : List Str
  content : Except Str H5File

/-- `os.path.basename` on a component path. -/
def basename (p : List Str) : Str := p.getLastD []

/-- `os.path.basename (os.path.dirname path)`: the immediate parent
directory name, which the worker uses as the label. -/
def parentDir (p : List Str) : Str := p.dropLast.getLastD []

/-- Rendering a component path as the slash-joined string used in
log lines. -/
def pathStr (p : List Str) : Str := List.intercalate ['/'] p

/-- Membership / lookup of the required dataset, embedding
`"vibration_data" in h5f` and `h5f["vibration_data"]`. -/
def findDataset (n : Str) (h : H5File) : Option H5Dataset :=
  h.datasets.find? fun d => d.dname == n

/-- The required dataset key. -/
def vibName : Str := "vibration_data".toList

/-! ## The per-file ingestion worker (`process_file`) -/

/-- The worker's three possible per-file outcomes, as distinguished
by its returned status string. -/
inductive Outcome where
  | appended : Outcome
  | skipped : Outcome
  | failed : Str → Outcome
deriving DecidableEq

/-- Error text of the `IndexError` raised by `parse_filename` when a
base name has fewer than five underscore-delimited parts. -/
def indexErrMsg : Str := "list index out of range".toList

/-- Error text of the `AnalysisException` raised by
`spark.read.format("delta").load(DELTA_DIR)` when no Delta table
exists at `DELTA_DIR`. -/
def noTableMsg : Str := "is not a Delta table".toList

/-- Error text of the `ValueError` raised when the required dataset
is absent (quotes of the Python literal elided). -/
def missingDataMsg : Str := "Missing vibration_data".toList

/-- Error text of the `ValueError` raised by
`pd.DataFrame(data, columns=[x,y,z])` when the array is not N-by-3. -/
def shapeErrMsg : Str := "Shape of passed values does not match columns".toList

/-- Error text of the `AnalysisException` raised by a Delta append
whose schema differs from the existing table's schema. -/
def schemaMismatchMsg : Str := "A schema mismatch detected".toList

/-- The skip message written when the idempotency check finds the
file already ingested (timing suffix omitted). -/
def skipMsg (p : List Str) : Str :=
  "Skipped (already exists): ".toList ++ pathStr p

/-- The success message written after a completed append (check-mark
and timing suffix omitted). -/
def succMsg (p : List Str) : Str := pathStr p

/-- One line of the failure log: `file_path | error text`. -/
def failLine (p : List Str) (e : Str) : Str :=
  pathStr p ++ " | ".toList ++ e

/-- The six-field equality filter of the idempotency check, in the
order the notebook writes it. -/
def matchesMeta (m : Meta) (label : Str) (r : Row) : Bool :=
  r.machine_id == m.machine_id && r.operation == m.operation &&
  r.example_no == m.example_no && r.year == m.year &&
  r.month == m.month && r.label == label

/-- Embedding of `pd.DataFrame(data, columns=["x","y","z"])`:
succeeds iff every source row has exactly three values, otherwise
the constructor raises. -/
def toXYZ : List (List ℚ) → Except Str (List (ℚ × ℚ × ℚ))
  | [] => Except.ok []
  | [a, b, c] :: rest =>
    match toXYZ rest with
    | Except.ok r => Except.ok ((a, b, c) :: r)
    | Except.error e => Except.error e
  | _ :: _ => Except.error shapeErrMsg

/-- Broadcasting the parsed metadata and the label onto every sample
row (`df_pd[k] = v` for each metadata field, `df_pd["label"] =
label`); the `astype("float64")` cast is exact on these values. -/
def mkRows (xyz : List (ℚ × ℚ × ℚ)) (m : Meta) (label : Str) : List Row :=
  xyz.map fun v =>
    { x := v.1, y := v.2.1, z := v.2.2
    , machine_id := m.machine_id, month := m.month, year := m.year
    , operation := m.operation, example_no := m.example_no, label := label }

/-- Embedding of `df_spark.write.format("delta")
.partitionBy("machine_id","operation","label").mode("append")
.save(DELTA_DIR)` against an existing table: the append commits one
transaction under the fixed partition columns, adds the batch rows,
and materialises one data file per partition value present in the
batch; it raises if the batch schema (always `deltaSchema`) differs
from the table's schema. -/
def appendDelta (t : DeltaTable) (newRows : List Row) : Except Str DeltaTable :=
  if t.schemaCols = deltaSchema then
    Except.ok
      { t with rows := t.rows ++ newRows
             , txns := t.txns ++ [{ partCols := pCols, nrows := newRows.length }]
             , dataFiles := t.dataFiles ++ (newRows.map rowTriple).dedup }
  else Except.error schemaMismatchMsg

/-- The `try` block of `process_file`, step for step: parse the
filename, read the label from the parent directory, run the
idempotency check against the current Delta table, and on a miss
open the file, require `vibration_data`, build the N-by-3 frame,
and append it.  Every `raise` is an `Except.error`. -/
def process_body (f : SrcFile) (st : PipeState) : Except Str (Outcome × PipeState) :=
  match parse_filename (basename f.path) with
  | none => Except.error indexErrMsg
  | some m =>
    match st.table with
    | none => Except.error noTableMsg
    | some t =>
      if t.rows.any (matchesMeta m (parentDir f.path)) then
        Except.ok (Outcome.skipped,
          { st with successLog := st.successLog ++ [skipMsg f.path] })
      else
        match f.content with
        | Except.error e => Except.error e
        | Except.ok h5f =>
          match findDataset vibName h5f with
          | none => Except.error missingDataMsg
          | some ds =>
            match toXYZ ds.data with
            | Except.error e => Except.error e
            | Except.ok xyz =>
              match appendDelta t (mkRows xyz m (parentDir f.path)) with
              | Except.error e => Except.error e
              | Except.ok t' =>
                Except.ok (Outcome.appended,
                  { st with table := some t'
                          , successLog := st.successLog ++ [succMsg f.path] })

/-- The whole worker: the `except` clause catches any exception of
the body, writes `file_path | error` to the failure log, and returns
a failure status — nothing ever propagates to the coordinator. -/
def process_file (f : SrcFile) (st : PipeState) : Outcome × PipeState :=
  match process_body f st with
  | Except.ok r => r
  | Except.error e =>
    (Outcome.failed e, { st with failLog := st.failLog ++ [failLine f.path e] })

/-- The coordinator's dispatch over a batch of files, in the
sequential (no concurrent-write race) execution every claim below
quantifies over. -/
def runBatch (files : List SrcFile) (st : PipeState) : PipeState :=
  files.foldl (fun s f => (process_file f s).2) st

/-- The verification reader's distinct metadata-tuple count
(`df.select(six fields).distinct().count()`); 0 when no table
exists. -/
def distinctTuples (t : DeltaTable) : Nat :=
  ((t.rows.map metaTuple).dedup).length

/-- Distinct-tuple count of a pipeline state. -/
def distinctTupleCount (st : PipeState) : Nat :=
  match st.table with
  | some t => distinctTuples t
  | none => 0

/-- The six-field tuple a source file would be ingested under, when
its name parses. -/
def fileTuple (f : SrcFile) : Option Tuple6 :=
  (parse_filename (basename f.path)).map fun m =>
    (m.machine_id, m.month, m.year, m.operation, m.example_no, parentDir f.path)

/-- The tuple built from parsed metadata plus label. -/
def tupleOfMeta (m : Meta) (label : Str) : Tuple6 :=
  (m.machine_id, m.month, m.year, m.operation, m.example_no, label)

/-- The partition directories of a state that hold at least one data
file. -/
def dfOf (st : PipeState) : List (Str × Str × Str) :=
  match st.table with
  | some t => t.dataFiles
  | none => []

/-- States reachable from `st0` by any sequence of ingestion-worker
invocations. -/
inductive ReachableFrom (st0 : PipeState) : PipeState → Prop where
  | refl : ReachableFrom st0 st0
  | step (f : SrcFile) {st : PipeState} :
      ReachableFrom st0 st → ReachableFrom st0 (process_file f st).2

/-! ## The source metadata profiler (`collect_hdf5_metadata`) -/

/-- `file.endswith(".h5")`. -/
def isH5 (nm : Str) : Bool := pyEndsWith nm ['.', 'h', '5']

/-- The first two-dimensional dataset of an opened file
(`len(dataset.shape) == 2`, first key wins, then `break`). -/
def first2D (h : H5File) : Option H5Dataset :=
  h.datasets.find? fun d => d.shape.length == 2

/-- One output record of the profiler: path, optional row/column
counts, column names, and an optional error text (the `error` key is
only ever set in the `except` clause). -/
structure H5Record where
  file_path : List Str
  num_rows : Option Nat
  num_columns : Option Nat
  column_names : List Str
  error : Option Str
deriving DecidableEq

/-- The per-file body of `collect_hdf5_metadata`: initialise the
record with null counts, then either fail to open (error recorded)
or record the shape and column names of the first 2D dataset, if
any. -/
def recordOf (f : SrcFile) : H5Record :=
  match f.content with
  | Except.error e =>
    { file_path := f.path, num_rows := none, num_columns := none
    , column_names := [], error := some e }
  | Except.ok h5f =>
    match first2D h5f with
    | some d =>
      { file_path := f.path, num_rows := some (d.shape.getD 0 0)
      , num_columns := some (d.shape.getD 1 0)
      , column_names := d.colNames, error := none }
    | none =>
      { file_path := f.path, num_rows := none, num_columns := none
      , column_names := [], error := none }

/-- `collect_hdf5_metadata`: walk the corpus, keep files with the
`.h5` extension, and emit one record per file. -/
def collect_hdf5_metadata (corpus : List SrcFile) : List H5Record :=
  (corpus.filter fun f => isH5 (basename f.path)).map recordOf

/-! ## Concrete fixtures used by witnesses and counterexamples -/

/-- A well-formed source file named by the digit `d`, under a `good`
directory, holding a 1-by-3 `vibration_data` dataset. -/
def goodFile (d : Char) : SrcFile :=
  { path := ["raw".toList, "good".toList,
             "M01_Feb_2019_OP00_00".toList ++ [d] ++ ".h5".toList]
  , content := Except.ok
      { datasets := [{ dname := vibName, shape := [1, 3]
                     , colNames := [], data := [[1, 2, 3]] }] } }

/-- A readable source file that lacks the `vibration_data` dataset. -/
def noVibFile : SrcFile :=
  { path := ["raw".toList, "good".toList,
             "M01_Feb_2019_OP00_004.h5".toList]
  , content := Except.ok { datasets := [] } }

/-- A source file whose required dataset is present but empty
(shape 0-by-3). -/
def emptyDataFile : SrcFile :=
  { path := ["raw".toList, "good".toList,
             "M01_Feb_2019_OP00_004.h5".toList]
  , content := Except.ok
      { datasets := [{ dname := vibName, shape := [0, 3]
                     , colNames := [], data := [] }] } }

/-- An existing, empty Delta table carrying the fixed schema. -/
def emptyTable : DeltaTable :=
  { schemaCols := deltaSchema, rows := [], txns := [], dataFiles := [] }

/-- A run-start state: existing empty table, freshly truncated
outcome logs. -/
def startState : PipeState :=
  { table := some emptyTable, successLog := [], failLog := [] }

/-- A run-start state with no Delta table at the output location. -/
def noTableState : PipeState :=
  { table := none, successLog := [], failLog := [] }

/-! ## Further fixtures and counters -/

/-- A source file whose base name has fewer than five
underscore-delimited segments. -/
def badNameFile : SrcFile :=
  { path := ["raw".toList, "good".toList, "bad.h5".toList]
  , content := Except.ok { datasets := [] } }

/-- An unreadable (corrupted) source file. -/
def corruptFile : SrcFile :=
  { path := ["raw".toList, "good".toList, "M01_Feb_2019_OP00_009.h5".toList]
  , content := Except.error "unable to open file".toList }


/-- A batch of 10 files whose fifth member lacks the required
dataset. -/
def batch10 : List SrcFile :=
  [ goodFile '0', goodFile '1', goodFile '2', goodFile '3', noVibFile
  , goodFile '5', goodFile '6', goodFile '7', goodFile '8', goodFile '9' ]

/-- The metadata parsed from `M01_Feb_2019_OP00_004.h5`. -/
def metaC3 : Meta :=
  { machine_id := "M01".toList, month := "Feb".toList, year := "2019".toList
  , operation := "OP00".toList, example_no := "004".toList }

/-- The row built from one 3-sample line of that file. -/
def rowC3 (row : List ℚ) : Row :=
  { x := row.getD 0 0, y := row.getD 1 0, z := row.getD 2 0
  , machine_id := "M01".toList, month := "Feb".toList
  , year := "2019".toList, operation := "OP00".toList
  , example_no := "004".toList, label := "good".toList }


def dsC3 : H5Dataset :=
  { dname := vibName, shape := [5, 3], colNames := []
  , data := [ [1227, -407, -894], [1079, -19, -853], [1100, 314, -860]
            , [1323, -68, -1056], [1389, -491, -1139] ] }

def fileC3 : SrcFile :=
  { path := ["raw".toList, "good".toList, "M01_Feb_2019_OP00_004.h5".toList]
  , content := Except.ok { datasets := [dsC3] } }


/-- Number of committed append transactions of a state. -/
def txnCount (st : PipeState) : Nat :=
  match st.table with
  | some t => t.txns.length
  | none => 0

def meta7 : Meta :=
  { machine_id := "M01".toList, month := "Feb".toList, year := "2019".toList
  , operation := "OP00".toList, example_no := "007".toList }

/-- The metadata parsed from `M01_Feb_2019_OP00_003.h5`. -/
def meta3 : Meta :=
  { machine_id := "M01".toList, month := "Feb".toList, year := "2019".toList
  , operation := "OP00".toList, example_no := "003".toList }

/-- A decidable check that a file's required dataset, if present and
readable, is nonempty. -/
def hasNonemptyBatch (f : SrcFile) : Bool :=
  match f.content with
  | Except.error _ => true
  | Except.ok h5f =>
    match findDataset vibName h5f with
    | none => true
    | some d => decide (d.data ≠ [])

/-- A row left in the table by an earlier run. -/
def preRow : Row :=
  { x := 1, y := 2, z := 3, machine_id := "M02".toList, month := "Aug".toList
  , year := "2019".toList, operation := "OP03".toList, example_no := "000".toList
  , label := "bad".toList }

/-- A run-start state whose table already holds `preRow`. -/
def preState : PipeState :=
  { table := some { schemaCols := deltaSchema, rows := [preRow], txns := []
                  , dataFiles := [("M02".toList, "OP03".toList, "bad".toList)] }
  , successLog := [], failLog := [] }

/-! ## String lemmas: segment counts under the two extension-removal
conventions -/

theorem countU_append (a b : Str) : countU (a ++ b) = countU a + countU b := by
  induction a with
  | nil => simp [countU]
  | cons c cs ih => simp [countU, ih]; omega

theorem pySplit_ne_nil (sep : Char) (s : Str) : pySplit sep s ≠ [] := by
  cases s with
  | nil => simp [pySplit]
  | cons c cs =>
    simp only [pySplit]
    split
    · simp
    · split
      · simp
      · simp

/-- Splitting on `_` yields one more piece than there are
underscores. -/
theorem pySplit_length (s : Str) : (pySplit '_' s).length = countU s + 1 := by
  induction s with
  | nil => simp [pySplit, countU]
  | cons c cs ih =>
    simp only [pySplit, countU]
    by_cases h : c = '_'
    · simp [h, ih]; omega
    · simp only [h, if_false, if_neg h]
      cases hs : pySplit '_' cs with
      | nil => exact absurd hs (pySplit_ne_nil '_' cs)
      | cons p ps =>
        simp only [List.length_cons]
        rw [hs] at ih
        simp at ih
        omega

/-- Deleting all `.h5` occurrences never touches an underscore. -/
theorem countU_stripAllH5 (s : Str) : countU (stripAllH5 s) = countU s := by
  have H : ∀ n (s : Str), s.length ≤ n → countU (stripAllH5 s) = countU s := by
    intro n
    induction n with
    | zero =>
      intro s hs
      have : s = [] := by cases s <;> simp_all
      subst this
      rfl
    | succ n ih =>
      intro s hs
      rw [stripAllH5.eq_def]
      split
      · rename_i rest
        have h1 : countU rest = countU ('.' :: 'h' :: '5' :: rest) := by
          simp [countU]
        rw [ih rest (by simp at hs; omega), h1]
      · rename_i c cs _
        have := ih cs (by simp at hs; omega)
        simp [countU, this]
      · rfl
  exact H s.length s le_rfl

/-- Removing only the trailing `.h5` never touches an underscore
either. -/
theorem countU_stripExtH5 (s : Str) : countU (stripExtH5 s) = countU s := by
  unfold stripExtH5
  split
  · rename_i h
    unfold pyEndsWith at h
    have hd : s.drop (s.length - 3) = ['.', 'h', '5'] := of_decide_eq_true h
    conv_rhs => rw [← List.take_append_drop (s.length - 3) s]
    rw [countU_append, hd]
    simp [countU]
  · rfl

/-- The parser fails exactly when the base name, with its trailing
extension removed, has fewer than five underscore-delimited
segments. -/
theorem parse_filename_eq_none_iff (nm : Str) :
    parse_filename nm = none ↔ (pySplit '_' (stripExtH5 nm)).length < 5 := by
  have hlen : (pySplit '_' (stripAllH5 nm)).length
      = (pySplit '_' (stripExtH5 nm)).length := by
    rw [pySplit_length, pySplit_length, countU_stripAllH5, countU_stripExtH5]
  unfold parse_filename parseParts
  split
  · rename_i h
    rw [hlen] at h
    exact iff_of_false (by simp) (by omega)
  · rename_i h
    rw [hlen] at h
    exact iff_of_true rfl (by omega)

/-! ## Worker lemmas -/

/-- The six-field equality filter holds exactly on rows whose
metadata tuple is the file's tuple. -/
theorem matchesMeta_iff (m : Meta) (label : Str) (r : Row) :
    matchesMeta m label r = true ↔ metaTuple r = tupleOfMeta m label := by
  simp only [matchesMeta, metaTuple, tupleOfMeta, Bool.and_eq_true, beq_iff_eq,
    Prod.mk.injEq]
  constructor
  · rintro ⟨⟨⟨⟨⟨h1, h2⟩, h3⟩, h4⟩, h5⟩, h6⟩
    exact ⟨h1, h5, h4, h2, h3, h6⟩
  · rintro ⟨h1, h5, h4, h2, h3, h6⟩
    exact ⟨⟨⟨⟨⟨h1, h2⟩, h3⟩, h4⟩, h5⟩, h6⟩

theorem mkRows_length (xyz : List (ℚ × ℚ × ℚ)) (m : Meta) (label : Str) :
    (mkRows xyz m label).length = xyz.length := by
  simp [mkRows]

/-- Every row of an appended batch carries the same six-field
tuple. -/
theorem mkRows_metaTuple (xyz : List (ℚ × ℚ × ℚ)) (m : Meta) (label : Str) :
    (mkRows xyz m label).map metaTuple
      = List.replicate xyz.length (tupleOfMeta m label) := by
  induction xyz with
  | nil => rfl
  | cons v vs ih =>
    simp only [mkRows, List.map_cons, List.length_cons, List.replicate_succ] at *
    exact congrArg _ ih

theorem mkRows_matches (xyz : List (ℚ × ℚ × ℚ)) (m : Meta) (label : Str) :
    ∀ r ∈ mkRows xyz m label, matchesMeta m label r = true := by
  intro r hr
  rw [matchesMeta_iff]
  simp only [mkRows, List.mem_map] at hr
  obtain ⟨v, _, rfl⟩ := hr
  rfl

/-- Every row of an appended batch lands in the same partition
directory. -/
theorem mkRows_rowTriple (xyz : List (ℚ × ℚ × ℚ)) (m : Meta) (label : Str) :
    (mkRows xyz m label).map rowTriple
      = List.replicate xyz.length (m.machine_id, m.operation, label) := by
  induction xyz with
  | nil => rfl
  | cons v vs ih =>
    simp only [mkRows, List.map_cons, List.length_cons, List.replicate_succ] at *
    exact congrArg _ ih

/-- Building the N-by-3 frame succeeds on exactly-3-column data and
keeps the values. -/
theorem toXYZ_ok (data : List (List ℚ)) (h : ∀ row ∈ data, row.length = 3) :
    toXYZ data = Except.ok
      (data.map fun row => (row.getD 0 0, row.getD 1 0, row.getD 2 0)) := by
  induction data with
  | nil => rfl
  | cons row rest ih =>
    have hrow : row.length = 3 := h row (by simp)
    match row, hrow with
    | [a, b, c], _ =>
      have := ih fun r hr => h r (by simp [hr])
      simp [toXYZ, this]

/-- Complete case analysis of one worker invocation: it fails (one
failure-log line, nothing else changes), skips (one success-log
line, table untouched), or appends one batch under the fixed
partition columns (one success-log line). -/
theorem step_classify (f : SrcFile) (st : PipeState) :
    (∃ e, process_file f st
        = (Outcome.failed e, { st with failLog := st.failLog ++ [failLine f.path e] }))
    ∨ (∃ t m, st.table = some t ∧ parse_filename (basename f.path) = some m ∧
        t.rows.any (matchesMeta m (parentDir f.path)) = true ∧
        process_file f st = (Outcome.skipped,
          { st with successLog := st.successLog ++ [skipMsg f.path] }))
    ∨ (∃ t m h5f d xyz, st.table = some t ∧ parse_filename (basename f.path) = some m ∧
        t.rows.any (matchesMeta m (parentDir f.path)) = false ∧
        f.content = Except.ok h5f ∧ findDataset vibName h5f = some d ∧
        toXYZ d.data = Except.ok xyz ∧ t.schemaCols = deltaSchema ∧
        process_file f st = (Outcome.appended,
          { st with
              table := some
                { t with rows := t.rows ++ mkRows xyz m (parentDir f.path)
                       , txns := t.txns ++
                           [{ partCols := pCols
                            , nrows := (mkRows xyz m (parentDir f.path)).length }]
                       , dataFiles := t.dataFiles ++
                           ((mkRows xyz m (parentDir f.path)).map rowTriple).dedup }
            , successLog := st.successLog ++ [succMsg f.path] })) := by
  cases hp : parse_filename (basename f.path) with
  | none =>
    exact Or.inl ⟨indexErrMsg, by simp [process_file, process_body, hp]⟩
  | some m =>
    cases ht : st.table with
    | none =>
      exact Or.inl ⟨noTableMsg, by simp [process_file, process_body, hp, ht]⟩
    | some t =>
      cases hany : t.rows.any (matchesMeta m (parentDir f.path)) with
      | true =>
        refine Or.inr (Or.inl ⟨t, m, rfl, rfl, hany, ?_⟩)
        simp [process_file, process_body, hp, ht, hany]
      | false =>
        cases hc : f.content with
        | error e =>
          exact Or.inl ⟨e, by simp [process_file, process_body, hp, ht, hany, hc]⟩
        | ok h5f =>
          cases hd : findDataset vibName h5f with
          | none =>
            exact Or.inl ⟨missingDataMsg,
              by simp [process_file, process_body, hp, ht, hany, hc, hd]⟩
          | some d =>
            cases hx : toXYZ d.data with
            | error e =>
              exact Or.inl ⟨e,
                by simp [process_file, process_body, hp, ht, hany, hc, hd, hx]⟩
            | ok xyz =>
              by_cases hs : t.schemaCols = deltaSchema
              · refine Or.inr (Or.inr ⟨t, m, h5f, d, xyz, rfl, rfl, hany, rfl, hd, hx, hs, ?_⟩)
                simp [process_file, process_body, appendDelta, hp, ht, hany, hc, hd, hx, hs]
              · refine Or.inl ⟨schemaMismatchMsg, ?_⟩
                simp [process_file, process_body, appendDelta, hp, ht, hany, hc, hd, hx, hs]

/-! ## Exact-branch lemmas for the worker -/

theorem process_file_parseFail (f : SrcFile) (st : PipeState)
    (hp : parse_filename (basename f.path) = none) :
    process_file f st = (Outcome.failed indexErrMsg,
      { st with failLog := st.failLog ++ [failLine f.path indexErrMsg] }) := by
  simp [process_file, process_body, hp]

theorem process_file_noTable (f : SrcFile) (st : PipeState) (m : Meta)
    (ht : st.table = none)
    (hp : parse_filename (basename f.path) = some m) :
    process_file f st = (Outcome.failed noTableMsg,
      { st with failLog := st.failLog ++ [failLine f.path noTableMsg] }) := by
  simp [process_file, process_body, hp, ht]

theorem process_file_skip (f : SrcFile) (st : PipeState) (t : DeltaTable) (m : Meta)
    (ht : st.table = some t)
    (hp : parse_filename (basename f.path) = some m)
    (hany : t.rows.any (matchesMeta m (parentDir f.path)) = true) :
    process_file f st = (Outcome.skipped,
      { st with successLog := st.successLog ++ [skipMsg f.path] }) := by
  simp [process_file, process_body, hp, ht, hany]

theorem process_file_missing (f : SrcFile) (st : PipeState) (t : DeltaTable)
    (m : Meta) (h5f : H5File)
    (ht : st.table = some t)
    (hp : parse_filename (basename f.path) = some m)
    (hany : t.rows.any (matchesMeta m (parentDir f.path)) = false)
    (hc : f.content = Except.ok h5f)
    (hd : findDataset vibName h5f = none) :
    process_file f st = (Outcome.failed missingDataMsg,
      { st with failLog := st.failLog ++ [failLine f.path missingDataMsg] }) := by
  simp [process_file, process_body, hp, ht, hany, hc, hd]

theorem process_file_append (f : SrcFile) (st : PipeState) (t : DeltaTable)
    (m : Meta) (h5f : H5File) (d : H5Dataset) (xyz : List (ℚ × ℚ × ℚ))
    (ht : st.table = some t) (hs : t.schemaCols = deltaSchema)
    (hp : parse_filename (basename f.path) = some m)
    (hany : t.rows.any (matchesMeta m (parentDir f.path)) = false)
    (hc : f.content = Except.ok h5f)
    (hd : findDataset vibName h5f = some d)
    (hx : toXYZ d.data = Except.ok xyz) :
    process_file f st = (Outcome.appended,
      { st with
          table := some
            { t with rows := t.rows ++ mkRows xyz m (parentDir f.path)
                   , txns := t.txns ++
                       [{ partCols := pCols
                        , nrows := (mkRows xyz m (parentDir f.path)).length }]
                   , dataFiles := t.dataFiles ++
                       ((mkRows xyz m (parentDir f.path)).map rowTriple).dedup }
        , successLog := st.successLog ++ [succMsg f.path] }) := by
  simp [process_file, process_body, appendDelta, hp, ht, hany, hc, hd, hx, hs]

theorem runBatch_nil (st : PipeState) : runBatch [] st = st := rfl

theorem runBatch_cons (f : SrcFile) (fs : List SrcFile) (st : PipeState) :
    runBatch (f :: fs) st = runBatch fs (process_file f st).2 := rfl

/-! ## Claims -/

/-- C6: the metadata parser fails exactly when the base name, after
removing the extension, does not split into at least five
underscore-delimited segments; on success it returns the first five
segments of the stripped base name as (machine_id, month, year,
operation, example_no); and a parse failure is a per-file worker
failure (one failure-log line), after which the coordinator simply
continues with the remaining files — never a pipeline abort. -/
theorem C6_parser_contract :
    (∀ nm : Str, parse_filename nm = none ↔ (pySplit '_' (stripExtH5 nm)).length < 5)
    ∧ (∀ nm m, parse_filename nm = some m →
        m = { machine_id := (pySplit '_' (stripAllH5 nm)).getD 0 []
            , month := (pySplit '_' (stripAllH5 nm)).getD 1 []
            , year := (pySplit '_' (stripAllH5 nm)).getD 2 []
            , operation := (pySplit '_' (stripAllH5 nm)).getD 3 []
            , example_no := (pySplit '_' (stripAllH5 nm)).getD 4 [] })
    ∧ (∀ f st, parse_filename (basename f.path) = none →
        process_file f st = (Outcome.failed indexErrMsg,
          { st with failLog := st.failLog ++ [failLine f.path indexErrMsg] }))
    ∧ (∀ f fs st, runBatch (f :: fs) st = runBatch fs (process_file f st).2) := by
  refine ⟨parse_filename_eq_none_iff, ?_, process_file_parseFail, fun _ _ _ => rfl⟩
  intro nm m h
  unfold parse_filename parseParts at h
  split at h
  · exact (Option.some_injective _ h).symm
  · exact absurd h (by simp)

theorem C6_witness :
    parse_filename "bad.h5".toList = none ∧
    process_file badNameFile startState = (Outcome.failed indexErrMsg,
      { startState with
          failLog := startState.failLog ++ [failLine badNameFile.path indexErrMsg] }) :=
  ⟨by decide, C6_parser_contract.2.2.1 badNameFile startState (by decide)⟩

/-- C7: a readable source file without the required
`vibration_data` dataset, whose tuple is not already in the table,
makes the worker raise and catch a missing-dataset error: nothing is
appended, exactly one failure-log line `path | error text` is
written, and a failure status is returned. -/
theorem C7_missing_dataset (f : SrcFile) (st : PipeState) (t : DeltaTable)
    (m : Meta) (h5f : H5File)
    (ht : st.table = some t)
    (hp : parse_filename (basename f.path) = some m)
    (hno : ∀ r ∈ t.rows, metaTuple r ≠ tupleOfMeta m (parentDir f.path))
    (hc : f.content = Except.ok h5f)
    (hd : findDataset vibName h5f = none) :
    process_file f st = (Outcome.failed missingDataMsg,
      { st with failLog := st.failLog ++ [failLine f.path missingDataMsg] }) := by
  have hany : t.rows.any (matchesMeta m (parentDir f.path)) = false := by
    rw [List.any_eq_false]
    intro r hr h
    exact hno r hr ((matchesMeta_iff m (parentDir f.path) r).mp h)
  exact process_file_missing f st t m h5f ht hp hany hc hd


theorem C7_witness :
    process_file noVibFile startState = (Outcome.failed missingDataMsg,
      { startState with
          failLog := startState.failLog ++ [failLine noVibFile.path missingDataMsg] }) :=
  C7_missing_dataset noVibFile startState emptyTable
    { machine_id := "M01".toList, month := "Feb".toList, year := "2019".toList
    , operation := "OP00".toList, example_no := "004".toList }
    { datasets := [] }
    rfl (by decide) (by intro r hr; simp [emptyTable] at hr) rfl rfl

/-- C10: when no Delta table exists at the output location, the
idempotency check's table read raises before any write; the failure
handler records the file in the failure log and nothing is appended,
so a whole run against a nonexistent table logs every file as a
failure and ingests zero files. -/
theorem C10_nonexistent_table :
    (∀ f st (m : Meta), st.table = none → parse_filename (basename f.path) = some m →
      process_file f st = (Outcome.failed noTableMsg,
        { st with failLog := st.failLog ++ [failLine f.path noTableMsg] }))
    ∧ (∀ f st, st.table = none → ∃ e, process_file f st
        = (Outcome.failed e, { st with failLog := st.failLog ++ [failLine f.path e] }))
    ∧ (∀ files st, st.table = none →
        (runBatch files st).table = none
        ∧ (runBatch files st).successLog = st.successLog
        ∧ (runBatch files st).failLog.length = st.failLog.length + files.length) := by
  have h2 : ∀ f st, st.table = none → ∃ e, process_file f st
      = (Outcome.failed e, { st with failLog := st.failLog ++ [failLine f.path e] }) := by
    intro f st ht
    cases hp : parse_filename (basename f.path) with
    | none => exact ⟨indexErrMsg, process_file_parseFail f st hp⟩
    | some m => exact ⟨noTableMsg, process_file_noTable f st m ht hp⟩
  refine ⟨fun f st m ht hp => process_file_noTable f st m ht hp, h2, ?_⟩
  intro files
  induction files with
  | nil => intro st ht; exact ⟨ht, rfl, by rw [runBatch_nil]; simp⟩
  | cons f fs ih =>
    intro st ht
    obtain ⟨e, he⟩ := h2 f st ht
    rw [runBatch_cons, he]
    obtain ⟨ha, hb, hc⟩ := ih { st with failLog := st.failLog ++ [failLine f.path e] } (by simp [ht])
    refine ⟨ha, hb, ?_⟩
    simp at hc
    simp [hc]
    omega

theorem C10_witness :
    process_file (goodFile '0') noTableState = (Outcome.failed noTableMsg,
      { noTableState with
          failLog := noTableState.failLog ++ [failLine (goodFile '0').path noTableMsg] })
    ∧ (runBatch [goodFile '0', goodFile '1'] noTableState).table = none
    ∧ (runBatch [goodFile '0', goodFile '1'] noTableState).failLog.length = 2 :=
  ⟨C10_nonexistent_table.1 (goodFile '0') noTableState
      { machine_id := "M01".toList, month := "Feb".toList, year := "2019".toList
      , operation := "OP00".toList, example_no := "000".toList } rfl (by decide),
   (C10_nonexistent_table.2.2 [goodFile '0', goodFile '1'] noTableState rfl).1,
   by
    have := (C10_nonexistent_table.2.2 [goodFile '0', goodFile '1'] noTableState rfl).2.2
    simpa using this⟩

/-- C9: the profiler emits exactly one record per `.h5` file and
never aborts the scan; an unreadable file's record carries the error
text and null row/column counts, while a readable file's record
carries the row and column count of the first two-dimensional
dataset found inside it. -/
theorem C9_profiler_robust :
    (∀ corpus : List SrcFile, (collect_hdf5_metadata corpus).length
        = (corpus.filter fun f => isH5 (basename f.path)).length)
    ∧ (∀ corpus : List SrcFile, collect_hdf5_metadata corpus
        = (corpus.filter fun f => isH5 (basename f.path)).map recordOf)
    ∧ (∀ (f : SrcFile) (e : Str), f.content = Except.error e →
        recordOf f = { file_path := f.path, num_rows := none, num_columns := none
                     , column_names := [], error := some e })
    ∧ (∀ (f : SrcFile) (h5f : H5File) (d : H5Dataset),
        f.content = Except.ok h5f → first2D h5f = some d →
        recordOf f = { file_path := f.path
                     , num_rows := some (d.shape.getD 0 0)
                     , num_columns := some (d.shape.getD 1 0)
                     , column_names := d.colNames, error := none }) := by
  refine ⟨fun corpus => by simp [collect_hdf5_metadata], fun corpus => rfl, ?_, ?_⟩
  · intro f e hc
    simp [recordOf, hc]
  · intro f h5f d hc hd
    simp [recordOf, hc, hd]

theorem C9_witness :
    collect_hdf5_metadata [goodFile '0', corruptFile]
      = [recordOf (goodFile '0'), recordOf corruptFile]
    ∧ recordOf corruptFile
        = { file_path := corruptFile.path, num_rows := none, num_columns := none
          , column_names := [], error := some "unable to open file".toList }
    ∧ recordOf (goodFile '0')
        = { file_path := (goodFile '0').path, num_rows := some 1
          , num_columns := some 3, column_names := [], error := none } :=
  ⟨by decide,
   C9_profiler_robust.2.2.1 corruptFile "unable to open file".toList rfl,
   C9_profiler_robust.2.2.2 (goodFile '0')
     { datasets := [{ dname := vibName, shape := [1, 3], colNames := [], data := [[1, 2, 3]] }] }
     { dname := vibName, shape := [1, 3], colNames := [], data := [[1, 2, 3]] }
     rfl (by decide)⟩


theorem step_schema (f : SrcFile) (st : PipeState)
    (h : ∀ t, st.table = some t → t.schemaCols = deltaSchema) :
    ∀ t', (process_file f st).2.table = some t' → t'.schemaCols = deltaSchema := by
  intro t' ht'
  rcases step_classify f st with ⟨e, he⟩ | ⟨t, m, ht, hp, hany, he⟩ |
    ⟨t, m, h5f, d, xyz, ht, hp, hany, hc, hd, hx, hs, he⟩
  · rw [he] at ht'
    exact h t' ht'
  · rw [he] at ht'
    exact h t' ht'
  · rw [he] at ht'
    simp only [Option.some.injEq] at ht'
    rw [← ht']
    exact hs

/-- C5: on every state whose table was created with the fixed
9-column schema, any sequence of ingestion-worker invocations
preserves it — reading the table always yields exactly the columns
x, y, z as float64 and machine_id, month, year, operation,
example_no, label as string, because every append uses the same
fixed schema. -/
theorem C5_schema_invariant (st0 st : PipeState)
    (h0 : ∀ t0, st0.table = some t0 → t0.schemaCols = deltaSchema)
    (hr : ReachableFrom st0 st) :
    ∀ t, st.table = some t →
      t.schemaCols =
        [ ("x".toList, FType.float64)
        , ("y".toList, FType.float64)
        , ("z".toList, FType.float64)
        , ("machine_id".toList, FType.string)
        , ("month".toList, FType.string)
        , ("year".toList, FType.string)
        , ("operation".toList, FType.string)
        , ("example_no".toList, FType.string)
        , ("label".toList, FType.string) ] := by
  induction hr with
  | refl => exact h0
  | step f hr ih => exact step_schema f _ ih

theorem C5_witness :
    ∃ t, (process_file (goodFile '0') startState).2.table = some t
      ∧ t.schemaCols =
        [ ("x".toList, FType.float64)
        , ("y".toList, FType.float64)
        , ("z".toList, FType.float64)
        , ("machine_id".toList, FType.string)
        , ("month".toList, FType.string)
        , ("year".toList, FType.string)
        , ("operation".toList, FType.string)
        , ("example_no".toList, FType.string)
        , ("label".toList, FType.string) ] := by
  cases hts : (process_file (goodFile '0') startState).2.table with
  | none => exact absurd hts (by decide)
  | some t =>
    exact ⟨t, rfl,
      C5_schema_invariant startState (process_file (goodFile '0') startState).2
        (fun t0 h => by
          simp only [startState, emptyTable, Option.some.injEq] at h
          rw [← h])
        (ReachableFrom.step (goodFile '0') ReachableFrom.refl) t hts⟩

/-- C2: every exception of the worker body (parsing, existence
check, reading, appending) is caught inside the worker: exactly one
failure-log line `path | error text` is written, a failure status is
returned, and nothing propagates; consequently, in the concrete
10-file batch whose fifth file lacks `vibration_data`, the run
completes with 9 successes, exactly 1 logged failure, and files 6-10
ingested. -/
theorem C2_failure_isolation :
    (∀ (f : SrcFile) (st : PipeState) (e : Str), process_body f st = Except.error e →
      process_file f st = (Outcome.failed e,
        { st with failLog := st.failLog ++ [failLine f.path e] }))
    ∧ (runBatch batch10 startState).successLog.length = 9
    ∧ (runBatch batch10 startState).failLog = [failLine noVibFile.path missingDataMsg]
    ∧ distinctTupleCount (runBatch batch10 startState) = 9 := by
  refine ⟨?_, by decide, by decide, by decide⟩
  intro f st e h
  simp [process_file, h]

theorem C2_witness :
    process_body noVibFile startState = Except.error missingDataMsg
    ∧ process_file noVibFile startState = (Outcome.failed missingDataMsg,
        { startState with
            failLog := startState.failLog ++ [failLine noVibFile.path missingDataMsg] }) :=
  ⟨by decide, C2_failure_isolation.1 noVibFile startState missingDataMsg (by decide)⟩


theorem any_matches_eq_false (rows : List Row) (m : Meta) (label : Str)
    (hno : ∀ r ∈ rows, metaTuple r ≠ tupleOfMeta m label) :
    rows.any (matchesMeta m label) = false := by
  rw [List.any_eq_false]
  intro r hr h
  exact hno r hr ((matchesMeta_iff m label r).mp h)

/-- C3: for a file named `M01_Feb_2019_OP00_004.h5` under a `good`
directory whose required dataset has shape 5-by-3 and whose tuple is
not yet in the table, the worker appends exactly 5 rows; every
appended row carries machine_id "M01", month "Feb", year "2019",
operation "OP00", example_no "004", label "good", the x/y/z values
are copied (the float64 cast is exact here), and the table keeps the
schema typing x, y, z as float64. -/
theorem C3_metadata_fidelity (f : SrcFile) (st : PipeState) (t : DeltaTable)
    (h5f : H5File) (d : H5Dataset)
    (hb : basename f.path = "M01_Feb_2019_OP00_004.h5".toList)
    (hl : parentDir f.path = "good".toList)
    (ht : st.table = some t) (hs : t.schemaCols = deltaSchema)
    (hno : ∀ r ∈ t.rows, metaTuple r ≠ tupleOfMeta metaC3 "good".toList)
    (hc : f.content = Except.ok h5f) (hd : findDataset vibName h5f = some d)
    (hlen : d.data.length = 5) (hw : ∀ row ∈ d.data, row.length = 3) :
    (process_file f st).1 = Outcome.appended
    ∧ ∃ t', (process_file f st).2.table = some t'
        ∧ t'.schemaCols = deltaSchema
        ∧ t'.rows = t.rows ++ d.data.map rowC3
        ∧ (d.data.map rowC3).length = 5
        ∧ ∀ r ∈ d.data.map rowC3,
            r.machine_id = "M01".toList ∧ r.month = "Feb".toList
            ∧ r.year = "2019".toList ∧ r.operation = "OP00".toList
            ∧ r.example_no = "004".toList ∧ r.label = "good".toList := by
  have hp : parse_filename (basename f.path) = some metaC3 := by
    rw [hb]; decide
  have hany : t.rows.any (matchesMeta metaC3 (parentDir f.path)) = false := by
    rw [hl]; exact any_matches_eq_false t.rows metaC3 "good".toList hno
  have hx := toXYZ_ok d.data hw
  have happ := process_file_append f st t metaC3 h5f d _ ht hs hp hany hc hd hx
  have hmk : mkRows (d.data.map fun row => (row.getD 0 0, row.getD 1 0, row.getD 2 0))
      metaC3 (parentDir f.path) = d.data.map rowC3 := by
    rw [hl]
    simp only [mkRows, List.map_map]
    rfl
  rw [happ]
  refine ⟨rfl, _, rfl, hs, by rw [hmk], by simp [hlen], ?_⟩
  intro r hr
  simp only [List.mem_map] at hr
  obtain ⟨row, _, rfl⟩ := hr
  exact ⟨rfl, rfl, rfl, rfl, rfl, rfl⟩

theorem C3_witness :
    (process_file fileC3 startState).1 = Outcome.appended
    ∧ ∃ t', (process_file fileC3 startState).2.table = some t'
        ∧ t'.schemaCols = deltaSchema
        ∧ t'.rows = emptyTable.rows ++ dsC3.data.map rowC3
        ∧ (dsC3.data.map rowC3).length = 5
        ∧ ∀ r ∈ dsC3.data.map rowC3,
            r.machine_id = "M01".toList ∧ r.month = "Feb".toList
            ∧ r.year = "2019".toList ∧ r.operation = "OP00".toList
            ∧ r.example_no = "004".toList ∧ r.label = "good".toList :=
  C3_metadata_fidelity fileC3 startState emptyTable { datasets := [dsC3] } dsC3
    rfl rfl rfl rfl (by intro r hr; simp [emptyTable] at hr) rfl (by decide)
    (by decide) (by decide)


theorem mkRows_any_matches (xyz : List (ℚ × ℚ × ℚ)) (m : Meta) (label : Str)
    (hne : xyz ≠ []) :
    (mkRows xyz m label).any (matchesMeta m label) = true := by
  cases xyz with
  | nil => exact absurd rfl hne
  | cons v vs =>
    simp only [mkRows, List.map_cons, List.any_cons, Bool.or_eq_true]
    left
    rw [matchesMeta_iff]
    rfl

/-- C1 (amended): for a source file whose dataset holds at least one
row, sequential double ingestion is idempotent — the first
invocation appends the file's rows, the second finds a matching row,
appends nothing (table unchanged) and reports a skip outcome, and
the rows matching the file's six-field tuple are exactly the one
appended batch.  (The amendment excludes empty datasets; see the
counterexample.) -/
theorem C1_sequential_idempotency (f : SrcFile) (st : PipeState) (t : DeltaTable)
    (m : Meta) (h5f : H5File) (d : H5Dataset) (xyz : List (ℚ × ℚ × ℚ))
    (ht : st.table = some t) (hs : t.schemaCols = deltaSchema)
    (hp : parse_filename (basename f.path) = some m)
    (hno : ∀ r ∈ t.rows, metaTuple r ≠ tupleOfMeta m (parentDir f.path))
    (hc : f.content = Except.ok h5f)
    (hd : findDataset vibName h5f = some d)
    (hx : toXYZ d.data = Except.ok xyz)
    (hne : xyz ≠ []) :
    (process_file f st).1 = Outcome.appended
    ∧ (process_file f (process_file f st).2).1 = Outcome.skipped
    ∧ (process_file f (process_file f st).2).2.table = (process_file f st).2.table
    ∧ ∃ t1, (process_file f st).2.table = some t1
        ∧ t1.rows.filter (matchesMeta m (parentDir f.path))
            = mkRows xyz m (parentDir f.path) := by
  have hany : t.rows.any (matchesMeta m (parentDir f.path)) = false :=
    any_matches_eq_false t.rows m (parentDir f.path) hno
  have happ := process_file_append f st t m h5f d xyz ht hs hp hany hc hd hx
  set t1 : DeltaTable :=
    { t with rows := t.rows ++ mkRows xyz m (parentDir f.path)
           , txns := t.txns ++
               [{ partCols := pCols
                , nrows := (mkRows xyz m (parentDir f.path)).length }]
           , dataFiles := t.dataFiles ++
               ((mkRows xyz m (parentDir f.path)).map rowTriple).dedup } with ht1def
  have ht1 : (process_file f st).2.table = some t1 := by rw [happ]
  have hany2 : t1.rows.any (matchesMeta m (parentDir f.path)) = true := by
    rw [ht1def]
    simp only [List.any_append]
    rw [hany, mkRows_any_matches xyz m (parentDir f.path) hne]
    rfl
  have hskip := process_file_skip f (process_file f st).2 t1 m ht1 hp hany2
  refine ⟨by rw [happ], by rw [hskip], by rw [hskip], t1, ht1, ?_⟩
  rw [ht1def]
  simp only [List.filter_append]
  rw [List.filter_eq_nil_iff.mpr, List.filter_eq_self.mpr (mkRows_matches xyz m (parentDir f.path))]
  · simp
  · intro r hr h
    exact hno r hr ((matchesMeta_iff m (parentDir f.path) r).mp h)

/-- C1 counterexample: for a source file whose required dataset is
empty (shape 0-by-3), the second sequential ingestion does NOT skip:
the idempotency check finds no matching row, so the worker appends
again (a second transaction is committed) and reports success, not a
skip, contradicting the claim as stated. -/
theorem C1_counterexample :
    (process_file emptyDataFile startState).1 = Outcome.appended
    ∧ (process_file emptyDataFile (process_file emptyDataFile startState).2).1
        = Outcome.appended
    ∧ (process_file emptyDataFile (process_file emptyDataFile startState).2).1
        ≠ Outcome.skipped
    ∧ txnCount (process_file emptyDataFile (process_file emptyDataFile startState).2).2 = 2 := by
  refine ⟨by decide, by decide, by decide, by decide⟩

theorem C1_witness :
    (process_file (goodFile '7') startState).1 = Outcome.appended
    ∧ (process_file (goodFile '7') (process_file (goodFile '7') startState).2).1
        = Outcome.skipped
    ∧ (process_file (goodFile '7') (process_file (goodFile '7') startState).2).2.table
        = (process_file (goodFile '7') startState).2.table
    ∧ ∃ t1, (process_file (goodFile '7') startState).2.table = some t1
        ∧ t1.rows.filter (matchesMeta meta7 (parentDir (goodFile '7').path))
            = mkRows [(1, 2, 3)] meta7 (parentDir (goodFile '7').path) :=
  C1_sequential_idempotency (goodFile '7') startState emptyTable meta7
    { datasets := [{ dname := vibName, shape := [1, 3], colNames := [], data := [[1, 2, 3]] }] }
    { dname := vibName, shape := [1, 3], colNames := [], data := [[1, 2, 3]] }
    [(1, 2, 3)]
    rfl rfl (by decide) (by intro r hr; simp [emptyTable] at hr) rfl (by decide)
    (by decide) (by decide)


/-- C8 (amended): every append transaction any worker commits uses
the identical fixed partition columns {machine_id, operation,
label}; a successful ingestion of a file with a nonempty dataset
creates at least one data file in the partition directory of its
machine_id/operation/label combination; and data files persist
through all later worker invocations.  (The amendment restricts the
partition-directory guarantee to nonempty datasets; see the
counterexample.) -/
theorem C8_partition_scheme :
    (∀ (f : SrcFile) (st : PipeState) (t t' : DeltaTable),
        st.table = some t → (process_file f st).2.table = some t' →
        ∃ new, t'.txns = t.txns ++ new ∧ ∀ a ∈ new, a.partCols = pCols)
    ∧ (∀ (f : SrcFile) (st : PipeState) (t : DeltaTable) (m : Meta) (h5f : H5File)
        (d : H5Dataset) (xyz : List (ℚ × ℚ × ℚ)),
        st.table = some t → t.schemaCols = deltaSchema →
        parse_filename (basename f.path) = some m →
        (∀ r ∈ t.rows, metaTuple r ≠ tupleOfMeta m (parentDir f.path)) →
        f.content = Except.ok h5f → findDataset vibName h5f = some d →
        toXYZ d.data = Except.ok xyz → xyz ≠ [] →
        (process_file f st).1 = Outcome.appended
        ∧ ∃ t', (process_file f st).2.table = some t'
            ∧ (m.machine_id, m.operation, parentDir f.path) ∈ t'.dataFiles)
    ∧ (∀ st st', ReachableFrom st st' → ∀ x, x ∈ dfOf st → x ∈ dfOf st') := by
  refine ⟨?_, ?_, ?_⟩
  · intro f st t t' ht ht'
    rcases step_classify f st with ⟨e, he⟩ | ⟨t0, m, ht0, hp, hany, he⟩ |
      ⟨t0, m, h5f, d, xyz, ht0, hp, hany, hc, hd, hx, hs, he⟩
    · rw [he] at ht'
      simp only at ht'
      rw [ht] at ht'
      refine ⟨[], ?_, by simp⟩
      simp only [Option.some.injEq] at ht'
      rw [ht', List.append_nil]
    · rw [he] at ht'
      simp only at ht'
      rw [ht] at ht'
      refine ⟨[], ?_, by simp⟩
      simp only [Option.some.injEq] at ht'
      rw [ht', List.append_nil]
    · rw [he] at ht'
      simp only [Option.some.injEq] at ht'
      rw [ht0] at ht
      simp only [Option.some.injEq] at ht
      subst ht
      refine ⟨[{ partCols := pCols
               , nrows := (mkRows xyz m (parentDir f.path)).length }], ?_, by simp⟩
      rw [← ht']
  · intro f st t m h5f d xyz ht hs hp hno hc hd hx hne
    have hany : t.rows.any (matchesMeta m (parentDir f.path)) = false :=
      any_matches_eq_false t.rows m (parentDir f.path) hno
    have happ := process_file_append f st t m h5f d xyz ht hs hp hany hc hd hx
    rw [happ]
    refine ⟨rfl, _, rfl, ?_⟩
    simp only [List.mem_append]
    right
    rw [List.mem_dedup, mkRows_rowTriple]
    rw [List.mem_replicate]
    exact ⟨by simpa using hne, rfl⟩
  · intro st st' hr
    induction hr with
    | refl => exact fun x hx => hx
    | step f hr ih =>
      rename_i stMid
      intro x hx
      have hmid := ih x hx
      rcases step_classify f stMid with ⟨e, he⟩ | ⟨t0, m, ht0, hp, hany, he⟩ |
        ⟨t0, m, h5f, d, xyz, ht0, hp, hany, hc, hd, hx2, hs, he⟩
      · rw [he]
        simpa [dfOf] using hmid
      · rw [he]
        simpa [dfOf] using hmid
      · rw [he]
        simp only [dfOf] at hmid ⊢
        rw [ht0] at hmid
        simp only [List.mem_append]
        exact Or.inl hmid


/-- C8 counterexample: a file whose required dataset is empty is
successfully ingested (status appended, machine_id "M01", operation
"OP00", label "good"), yet the output holds no data file at all — so
its machine_id/operation/label combination has no partition
subdirectory with a data file, contradicting the claim as stated. -/
theorem C8_counterexample :
    (process_file emptyDataFile startState).1 = Outcome.appended
    ∧ dfOf (process_file emptyDataFile startState).2 = []
    ∧ fileTuple emptyDataFile
        = some ("M01".toList, "Feb".toList, "2019".toList, "OP00".toList,
            "004".toList, "good".toList) :=
  ⟨by decide, by decide, by decide⟩

theorem C8_witness :
    (process_file (goodFile '3') startState).1 = Outcome.appended
    ∧ ∃ t', (process_file (goodFile '3') startState).2.table = some t'
        ∧ (meta3.machine_id, meta3.operation, parentDir (goodFile '3').path)
            ∈ t'.dataFiles :=
  C8_partition_scheme.2.1 (goodFile '3') startState emptyTable meta3
    { datasets := [{ dname := vibName, shape := [1, 3], colNames := [], data := [[1, 2, 3]] }] }
    { dname := vibName, shape := [1, 3], colNames := [], data := [[1, 2, 3]] }
    [(1, 2, 3)]
    rfl rfl (by decide) (by intro r hr; simp [emptyTable] at hr) rfl (by decide)
    (by decide) (by decide)


/-- A successful parse determines the file's six-field tuple. -/
theorem fileTuple_eq_some (f : SrcFile) (m : Meta)
    (hp : parse_filename (basename f.path) = some m) :
    fileTuple f = some (tupleOfMeta m (parentDir f.path)) := by
  simp [fileTuple, hp, tupleOfMeta]

/-- Counting invariant of a sequential run: starting from a table
none of whose tuples will be presented again, every worker
invocation adds a success-log line exactly when it adds a new
distinct tuple (appends), or adds neither (failures); skips cannot
occur. -/
theorem runBatch_count_aux (files : List SrcFile) :
    ∀ (st : PipeState) (t : DeltaTable),
    st.table = some t → t.schemaCols = deltaSchema →
    (files.filterMap fileTuple).Nodup →
    (∀ f ∈ files, ∀ τ, fileTuple f = some τ → τ ∉ t.rows.map metaTuple) →
    (∀ f ∈ files, ∀ h5f d xyz, f.content = Except.ok h5f →
        findDataset vibName h5f = some d → toXYZ d.data = Except.ok xyz → xyz ≠ []) →
    ∃ t', (runBatch files st).table = some t' ∧
      (t'.rows.map metaTuple).toFinset.card + st.successLog.length
        = (t.rows.map metaTuple).toFinset.card + (runBatch files st).successLog.length := by
  induction files with
  | nil =>
    intro st t ht _ _ _ _
    exact ⟨t, ht, rfl⟩
  | cons f fs ih =>
    intro st t ht hs hnodup hmem hne
    rcases step_classify f st with ⟨e, he⟩ | ⟨t0, m, ht0, hp, hany, he⟩ |
      ⟨t0, m, h5f, d, xyz, ht0, hp, hany, hc, hd, hx, hs0, he⟩
    · -- failure: state changes only in the failure log
      have hnd' : (fs.filterMap fileTuple).Nodup := by
        cases hft : fileTuple f with
        | none => rw [List.filterMap_cons_none hft] at hnodup; exact hnodup
        | some τ => rw [List.filterMap_cons_some hft] at hnodup; exact hnodup.of_cons
      have := ih { st with failLog := st.failLog ++ [failLine f.path e] } t ht hs hnd'
        (fun g hg => hmem g (by simp [hg])) (fun g hg => hne g (by simp [hg]))
      rw [runBatch_cons, he]
      exact this
    · -- skip: impossible, the file's tuple is not yet in the table
      exfalso
      rw [ht] at ht0
      injection ht0 with ht0
      subst ht0
      rw [List.any_eq_true] at hany
      obtain ⟨r, hr, hmatch⟩ := hany
      have := (matchesMeta_iff m (parentDir f.path) r).mp hmatch
      exact hmem f (by simp) (tupleOfMeta m (parentDir f.path))
        (fileTuple_eq_some f m hp) (by rw [← this]; exact List.mem_map_of_mem metaTuple hr)
    · -- append: one new tuple, one new success line
      rw [ht] at ht0
      injection ht0 with ht0
      subst ht0
      have hτ : fileTuple f = some (tupleOfMeta m (parentDir f.path)) :=
        fileTuple_eq_some f m hp
      have hτnotin : tupleOfMeta m (parentDir f.path) ∉ t.rows.map metaTuple :=
        hmem f (by simp) _ hτ
      have hxyz_ne : xyz ≠ [] := hne f (by simp) h5f d xyz hc hd hx
      have hnodup' := hnodup
      rw [List.filterMap_cons_some hτ] at hnodup'
      have hτnotfs : tupleOfMeta m (parentDir f.path) ∉ fs.filterMap fileTuple :=
        (List.nodup_cons.mp hnodup').1
      have hnd' : (fs.filterMap fileTuple).Nodup := (List.nodup_cons.mp hnodup').2
      set lbl := parentDir f.path with hlbl
      set τ := tupleOfMeta m lbl with hτdef
      set t1 : DeltaTable :=
        { t with rows := t.rows ++ mkRows xyz m lbl
               , txns := t.txns ++
                   [{ partCols := pCols, nrows := (mkRows xyz m lbl).length }]
               , dataFiles := t.dataFiles ++ ((mkRows xyz m lbl).map rowTriple).dedup }
        with ht1def
      have hmap1 : (t.rows ++ mkRows xyz m lbl).map metaTuple
          = t.rows.map metaTuple ++ List.replicate xyz.length τ := by
        simp only [List.map_append]
        rw [mkRows_metaTuple]
      have hfin1 : ((t.rows ++ mkRows xyz m lbl).map metaTuple).toFinset
          = insert τ (t.rows.map metaTuple).toFinset := by
        rw [hmap1, List.toFinset_append,
          List.toFinset_replicate_of_ne_zero (by simpa using hxyz_ne),
          Finset.union_comm, ← Finset.insert_eq]
      have hcard1 : ((t.rows ++ mkRows xyz m lbl).map metaTuple).toFinset.card
          = (t.rows.map metaTuple).toFinset.card + 1 := by
        rw [hfin1, Finset.card_insert_of_not_mem (by simpa using hτnotin)]
      have hmem' : ∀ g ∈ fs, ∀ τg, fileTuple g = some τg →
          τg ∉ (t.rows ++ mkRows xyz m lbl).map metaTuple := by
        intro g hg τg hτg hin
        rw [hmap1, List.mem_append] at hin
        rcases hin with hin | hin
        · exact hmem g (by simp [hg]) τg hτg hin
        · rw [List.mem_replicate] at hin
          apply hτnotfs
          rw [← hin.2]
          exact List.mem_filterMap.mpr ⟨g, hg, hτg⟩
      obtain ⟨t', h1, h3⟩ := ih
        { st with table := some t1, successLog := st.successLog ++ [succMsg f.path] }
        t1 rfl (by rw [ht1def]; exact hs) hnd' hmem'
        (fun g hg => hne g (by simp [hg]))
      refine ⟨t', by rw [runBatch_cons, he]; exact h1, ?_⟩
      rw [runBatch_cons, he]
      simp only [List.length_append, List.length_cons, List.length_nil] at h3 ⊢
      omega


/-- Frame construction preserves the row count. -/
theorem toXYZ_length : ∀ (data : List (List ℚ)) (xyz : List (ℚ × ℚ × ℚ)),
    toXYZ data = Except.ok xyz → xyz.length = data.length := by
  intro data
  induction data with
  | nil =>
    intro xyz h
    simp only [toXYZ] at h
    injection h with h
    rw [← h]
    rfl
  | cons row rest ih =>
    intro xyz h
    rw [toXYZ.eq_def] at h
    split at h
    · rename_i x heq
      exact absurd heq (by simp)
    · rename_i a b c rest' heq
      injection heq with h1 h2
      subst h2
      split at h
      · rename_i r hr
        injection h with h
        rw [← h]
        simp only [List.length_cons]
        rw [ih r hr]
      · exact absurd h (by simp)
    · exact absurd h (by simp)

/-- C4 (amended): for a sequential run started with truncated logs
against an existing empty table, over files whose parsed six-field
tuples are pairwise distinct and whose readable datasets are
nonempty, the number of distinct six-field tuples in the final table
equals the number of success-log lines written by the run.  (The
amendment adds the empty-initial-table, distinct-tuple and
nonempty-dataset provisos; see the counterexample.) -/
theorem C4_count_invariant (files : List SrcFile) (st : PipeState) (t : DeltaTable)
    (ht : st.table = some t) (hrows : t.rows = []) (hs : t.schemaCols = deltaSchema)
    (hlog : st.successLog = [])
    (hnodup : (files.filterMap fileTuple).Nodup)
    (hne : ∀ f ∈ files, hasNonemptyBatch f = true) :
    distinctTupleCount (runBatch files st) = (runBatch files st).successLog.length := by
  have hne' : ∀ f ∈ files, ∀ h5f d xyz, f.content = Except.ok h5f →
      findDataset vibName h5f = some d → toXYZ d.data = Except.ok xyz → xyz ≠ [] := by
    intro f hf h5f d xyz hc hd hx hxeq
    have hb := hne f hf
    rw [hasNonemptyBatch] at hb
    rw [hc] at hb
    simp only [hd] at hb
    rw [decide_eq_true_eq] at hb
    apply hb
    subst hxeq
    have := toXYZ_length d.data [] hx
    simpa using this.symm
  obtain ⟨t', h1, h3⟩ := runBatch_count_aux files st t ht hs hnodup
    (fun f hf τ hτ hin => by rw [hrows] at hin; simp at hin) hne'
  have hc : distinctTupleCount (runBatch files st)
      = (t'.rows.map metaTuple).toFinset.card := by
    simp only [distinctTupleCount, h1, distinctTuples]
    rw [List.card_toFinset]
  rw [hc]
  rw [hrows, hlog] at h3
  simpa using h3

/-- C4 counterexample: a run over one new file against a
pre-existing table that already holds one other tuple ends with 1
success-log line but 2 distinct tuples in the table, contradicting
the claim as stated. -/
theorem C4_counterexample :
    (runBatch [goodFile '0'] preState).successLog.length = 1
    ∧ distinctTupleCount (runBatch [goodFile '0'] preState) = 2
    ∧ distinctTupleCount (runBatch [goodFile '0'] preState)
        ≠ (runBatch [goodFile '0'] preState).successLog.length :=
  ⟨by decide, by decide, by decide⟩

theorem C4_witness :
    distinctTupleCount (runBatch [goodFile '0', goodFile '1'] startState)
      = (runBatch [goodFile '0', goodFile '1'] startState).successLog.length :=
  C4_count_invariant [goodFile '0', goodFile '1'] startState emptyTable
    rfl rfl rfl rfl (by decide) (by decide)

end SparkDelta
